import Mathlib

/-!
# myThreadPool: a shallow embedding of `threadpool.h` / `threadpool.cpp`

The embedding follows the C++ source declaration by declaration.

* Heap objects (`Task`, `Result`) live in maps from addresses to records; the
  null pointer is `none`.
* `std::atomic_uint` counters are naturals reduced modulo `2^32`, `size_t` is
  reduced modulo `2^64`, and an `int` compared with an unsigned counter is first
  converted to unsigned, as the usual arithmetic conversions of C++ prescribe.
* Undefined behaviour (dereferencing a null `unique_ptr`, writing through a
  dangling `Result*`, overflowing the `int` loop counter) is the result `none`.
* A call that blocks (`Semaphore::wait` on a zero counter) is a transition that
  is not enabled: it also yields `none`.
* Threads are interleaved at the granularity of the critical sections guarded
  by `taskQueMtx_`; `ThreadPool::start` is taken as a single step; a worker
  runs `Task::exec` outside the lock in two steps (it reads `result_` and
  enters `run()`, later `run()` returns and `setVal` is called), between which
  the caller's thread may construct and destroy `Result` objects; wall-clock
  conditions are supplied by the scheduler as booleans.
* The `int` counters `Thread::generateId_` and `Semaphore::resLimit_` are only
  ever stepped by one; their overflow after `2^31` steps is not modelled.
-/

namespace MyThreadPool

/-! ## Machine integers -/

/-- Conversion of an `int` to `unsigned int` (value modulo `2^32`). -/
def toU32 (i : Int) : Nat := (i % 4294967296).toNat

/-- Conversion of an `int` to `size_t` (value modulo `2^64`). -/
def toSizeT (i : Int) : Nat := (i % 18446744073709551616).toNat

/-- Post-increment of a `std::atomic_uint`. -/
def u32Inc (x : Nat) : Nat := (x + 1) % 4294967296

/-- Post-decrement of a `std::atomic_uint` (wraps from `0` to `2^32 - 1`). -/
def u32Dec (x : Nat) : Nat := (x + 4294967295) % 4294967296

/-- Largest value of an `int`. -/
def INT_MAX : Nat := 2147483647

/-! ## Constants of `threadpool.cpp` -/

/-- Default capacity of the task queue. -/
def TASK_MAX_THRESHHOLD : Int := 1024

/-- Default cap on the number of worker threads. -/
def THREAD_MAX_THRESHHOLD : Int := 10

/-- Idle time, in seconds, after which a surplus worker of a `MODE_CACHED` pool
ends; the comparison of the clock with it is the scheduler-supplied boolean
`idleExpired` of `ThreadPool.threadFunc`. -/
def THREAD_MAX_IDLE_TIME : Int := 10

/-- Enumeration `enum class PoolMode`. -/
inductive PoolMode where
  | MODE_FIXED
  | MODE_CACHED
  deriving DecidableEq, Repr

/-! ## `class Any` -/

/-- The C++ value types that can instantiate the templates of `Any`: `Tag` names
the types template argument deduction yields for the by-value parameter of
`Any(T data)` (decayed, without top-level qualifiers), `Val T` is the set of
values of type `T`.  The string literal `""` that `Result::get` returns has
type `const char*` after decay. -/
class CxxTypes (Tag : Type) where
  Val : Tag → Type
  constCharPtr : Tag
  emptyLiteral : Val constCharPtr

variable {Tag : Type} [CxxTypes Tag]

/-- The carrier `class Any`: `ptr_` is a `unique_ptr<Base>`; `none` is the null
pointer and `some ⟨T, x⟩` points to a `Derive<T>` whose `data` is `x`. -/
structure Any (Tag : Type) [CxxTypes Tag] where
  ptr_ : Option (Σ T : Tag, CxxTypes.Val T)

/-- Default constructor `Any() = default`: a null `ptr_`. -/
def Any.default : Any Tag := ⟨none⟩

/-- Converting constructor `template<typename T> Any(T data)`. -/
def Any.ofData (T : Tag) (data : CxxTypes.Val T) : Any Tag := ⟨some ⟨T, data⟩⟩

/-- The message thrown by `cast_`. -/
def typeMismatch : String := "类型不匹配"

/-- Member `template<typename T> T cast_()`: `dynamic_cast<Derive<T>*>` yields
null on a null pointer and on an object of another dynamic type. -/
def Any.cast_ [DecidableEq Tag] (a : Any Tag) (T : Tag) : Except String (CxxTypes.Val T) :=
  match a.ptr_ with
  | none => Except.error typeMismatch
  | some ⟨U, data⟩ => if h : U = T then Except.ok (h ▸ data) else Except.error typeMismatch

/-! ## `class Semaphore` -/

/-- The counting semaphore; `resLimit_` is an `int`. -/
structure Semaphore where
  resLimit_ : Int
  deriving DecidableEq, Repr

/-- Member `Semaphore::wait`: returns once `resLimit_ > 0` and then decrements it;
`none` means the caller is still blocked on `cond_`. -/
def Semaphore.wait (s : Semaphore) : Option Semaphore :=
  if s.resLimit_ > 0 then some ⟨s.resLimit_ - 1⟩ else none

/-- Member `Semaphore::post`. -/
def Semaphore.post (s : Semaphore) : Semaphore := ⟨s.resLimit_ + 1⟩

/-! ## Heap objects -/

/-- A `Result` object.  `task_` is the address of the bound `Task` (the
`shared_ptr` is never null: constructing a `Result` dereferences it).
`setValCalls` is a history variable counting the invocations of `setVal`. -/
structure Result (Tag : Type) [CxxTypes Tag] where
  any_ : Any Tag
  sem_ : Semaphore
  task_ : Nat
  isValid_ : Bool
  setValCalls : Nat

/-- A `Task` object.  `result_` is the raw `Result*` (`none` is `nullptr`);
`run` is the value the unit's override of the pure virtual `run()` produces;
`runCalls` is a history variable counting the invocations of `run()`. -/
structure Task (Tag : Type) [CxxTypes Tag] where
  result_ : Option Nat
  run : Any Tag
  runCalls : Nat

/-- A `Thread` object; `func_` is always `ThreadPool::threadFunc` of the pool. -/
structure Thread where
  threadId_ : Int
  deriving DecidableEq, Repr

/-- Control point of a detached OS thread running `ThreadPool::threadFunc`:
at the test of the outer `while`, blocked on `notEmpty_` inside the inner
`while`, outside the lock holding a dequeued task whose `exec()` has not begun,
or inside `run()` of that task with the value `target` its `exec()` read from
`result_`. -/
inductive Phase where
  | loopTop
  | waiting
  | executing (task : Nat)
  | running (task : Nat) (target : Option Nat)
  deriving DecidableEq, Repr

/-- A detached OS thread created by `Thread::start`, with the `threadId`
argument it was given. -/
structure Worker where
  tid : Int
  phase : Phase
  deriving DecidableEq, Repr

/-- The data members of `class ThreadPool` (mutexes and condition variables
carry no data). `threads_` is the `unordered_map<int, unique_ptr<Thread>>`. -/
structure ThreadPool where
  threads_ : List (Int × Thread)
  initThreadSize_ : Nat
  idleThreadSize_ : Nat
  currThreadSize_ : Nat
  threadMaxThreshHold_ : Int
  myTaskQue_ : List Nat
  taskSize_ : Nat
  taskQueMaxThreshHold_ : Int
  pollMode_ : PoolMode
  isPoolRunning_ : Bool
  deriving DecidableEq, Repr

/-- The whole program state: one pool, the static `Thread::generateId_`, the
detached worker threads, the heap of tasks and results, and two history
variables recording the units accepted into and removed from the queue. -/
structure Sys (Tag : Type) [CxxTypes Tag] where
  pool : ThreadPool
  generateId_ : Int
  workers : List Worker
  tasks : Nat → Task Tag
  results : Nat → Option (Result Tag)
  accepted : List Nat
  dequeued : List Nat

/-! ## The registry `threads_` -/

/-- Lookup `threads_.find(k)`. -/
def registryFind : List (Int × Thread) → Int → Option Thread
  | [], _ => none
  | (k0, v) :: rest, k => if k0 = k then some v else registryFind rest k

/-- Call `threads_.emplace(k, v)`: inserts only when the key is absent; also
returns the element stored under `k` afterwards. -/
def registryEmplace (m : List (Int × Thread)) (k : Int) (v : Thread) :
    List (Int × Thread) × Thread :=
  match registryFind m k with
  | some old => (m, old)
  | none => (m ++ [(k, v)], v)

/-- Call `threads_.erase(k)`. -/
def registryErase (m : List (Int × Thread)) (k : Int) : List (Int × Thread) :=
  m.filter (fun e => decide (e.1 ≠ k))

/-! ## `class Thread` -/

/-- Constructor `Thread::Thread(func)`: `threadId_(generateId_++)`. -/
def Thread.new (s : Sys Tag) : Thread × Sys Tag :=
  (⟨s.generateId_⟩, { s with generateId_ := s.generateId_ + 1 })

/-- Member `Thread::getId`. -/
def Thread.getId (t : Thread) : Int := t.threadId_

/-- Member `Thread::start`: a detached `std::thread` runs `func_(threadId_)`. -/
def Thread.start (t : Thread) (s : Sys Tag) : Sys Tag :=
  { s with workers := s.workers ++ [⟨t.threadId_, Phase.loopTop⟩] }

/-! ## `class Result` and `class Task` -/

/-- Member `Task::setResult`. -/
def Task.setResult (task : Nat) (result : Option Nat) (s : Sys Tag) : Sys Tag :=
  { s with tasks := fun t => if t = task then { s.tasks task with result_ := result } else s.tasks t }

/-- Constructor `Result::Result(task, isValid)` placing the object at address
`addr`: default `any_`, `sem_(0)`, then `task_->setResult(this)`. -/
def Result.construct (addr : Nat) (task : Nat) (isValid : Bool) (s : Sys Tag) : Sys Tag :=
  Task.setResult task (some addr)
    { s with
      results := fun a =>
        if a = addr then some ⟨Any.default, ⟨0⟩, task, isValid, 0⟩ else s.results a }

/-- Destructor `Result::~Result` of the object at `addr`:
`task_->setResult(nullptr)`.  `none` when no object lives at `addr`. -/
def Result.destroy (addr : Nat) (s : Sys Tag) : Option (Sys Tag) :=
  match s.results addr with
  | none => none
  | some r =>
    some (Task.setResult r.task_ none
      { s with results := fun a => if a = addr then none else s.results a })

/-- Member `Result::setVal(any)` on the object at `addr`.  `none` when no object
lives at `addr` (a write through a dangling pointer). -/
def Result.setVal (addr : Nat) (any : Any Tag) (s : Sys Tag) : Option (Sys Tag) :=
  match s.results addr with
  | none => none
  | some r =>
    some { s with
      results := fun a =>
        if a = addr then
          some { r with any_ := any, sem_ := r.sem_.post, setValCalls := r.setValCalls + 1 }
        else s.results a }

/-- Member `Result::get()` on the object at `addr`: `return ""` when the channel
is not valid, otherwise `sem_.wait()` and `return std::move(any_)`, which leaves
`any_` with a null `ptr_`.  `none` when the caller is blocked in `sem_.wait()`
or no object lives at `addr`. -/
def Result.get (addr : Nat) (s : Sys Tag) : Option (Any Tag × Sys Tag) :=
  match s.results addr with
  | none => none
  | some r =>
    if r.isValid_ = false then
      some (Any.ofData CxxTypes.constCharPtr CxxTypes.emptyLiteral, s)
    else
      match r.sem_.wait with
      | none => none
      | some sem =>
        some (r.any_, { s with
          results := fun a =>
            if a = addr then some { r with any_ := Any.default, sem_ := sem } else s.results a })

/-- The call of the virtual `run()` on the task at `task`: produces the unit's
value and counts the invocation. -/
def Task.callRun (task : Nat) (s : Sys Tag) : Any Tag × Sys Tag :=
  ((s.tasks task).run,
   { s with
     tasks := fun t =>
       if t = task then { s.tasks task with runCalls := (s.tasks task).runCalls + 1 }
       else s.tasks t })

/-- Member `Task::exec`, run without interference from other threads. -/
def Task.exec (task : Nat) (s : Sys Tag) : Option (Sys Tag) :=
  match (s.tasks task).result_ with
  | some addr => Result.setVal addr (Task.callRun task s).1 (Task.callRun task s).2
  | none => some (Task.callRun task s).2

/-- First half of `Task::exec` as a worker runs it: `result_` is read (the test
against `nullptr` and the object expression of `result_->setVal(run())`, which
C++17 sequences before the argument `run()`) and `run()` is entered.  Returns
the pointer read. -/
def Task.execBegin (task : Nat) (s : Sys Tag) : Option Nat × Sys Tag :=
  ((s.tasks task).result_, (Task.callRun task s).2)

/-- Second half of `Task::exec`: `run()` has returned and, when the pointer
read at the beginning was not null, `setVal` is called through it. -/
def Task.execEnd (task : Nat) (target : Option Nat) (s : Sys Tag) : Option (Sys Tag) :=
  match target with
  | some addr => Result.setVal addr (s.tasks task).run s
  | none => some s

/-! ## `class ThreadPool` -/

/-- Constructor `ThreadPool::ThreadPool()`. -/
def ThreadPool.new : ThreadPool :=
  { threads_ := []
    initThreadSize_ := 0
    idleThreadSize_ := 0
    currThreadSize_ := 0
    threadMaxThreshHold_ := THREAD_MAX_THRESHHOLD
    myTaskQue_ := []
    taskSize_ := 0
    taskQueMaxThreshHold_ := TASK_MAX_THRESHHOLD
    pollMode_ := PoolMode.MODE_FIXED
    isPoolRunning_ := false }

/-- Member `ThreadPool::checkRunningState`. -/
def ThreadPool.checkRunningState (p : ThreadPool) : Bool := p.isPoolRunning_

/-- Member `ThreadPool::setMode`. -/
def ThreadPool.setMode (mode : PoolMode) (p : ThreadPool) : ThreadPool :=
  if p.checkRunningState then p else { p with pollMode_ := mode }

/-- Member `ThreadPool::setTaskQueMaxThreshHold`. -/
def ThreadPool.setTaskQueMaxThreshHold (threshhold : Int) (p : ThreadPool) : ThreadPool :=
  if p.checkRunningState || p.pollMode_ = PoolMode.MODE_FIXED then p
  else { p with taskQueMaxThreshHold_ := threshhold }

/-- Member `ThreadPool::setThreadSizeThreshHold`. -/
def ThreadPool.setThreadSizeThreshHold (threshhold : Int) (p : ThreadPool) : ThreadPool :=
  if p.checkRunningState then p else { p with threadMaxThreshHold_ := threshhold }

/-- First loop of `ThreadPool::start`, `k` iterations: construct a `Thread` and
`threads_.emplace(threadId, ptr)`. -/
def ThreadPool.startCreate : Nat → Sys Tag → Sys Tag
  | 0, s => s
  | k + 1, s =>
    let ptr := (Thread.new s).1
    let s1 := (Thread.new s).2
    let threadId := ptr.getId
    ThreadPool.startCreate k
      { s1 with pool := { s1.pool with threads_ := (registryEmplace s1.pool.threads_ threadId ptr).1 } }

/-- Second loop of `ThreadPool::start`, `k` iterations from index `i`:
`threads_[i]->start(); idleThreadSize_++`.  When `i` is not a key,
`operator[]` inserts a null `unique_ptr` and `->start()` dereferences it:
`none`. -/
def ThreadPool.startLaunch : Nat → Int → Sys Tag → Option (Sys Tag)
  | 0, _, s => some s
  | k + 1, i, s =>
    match registryFind s.pool.threads_ i with
    | none => none
    | some t =>
      let s1 := Thread.start t s
      ThreadPool.startLaunch k (i + 1)
        { s1 with pool := { s1.pool with idleThreadSize_ := u32Inc s1.pool.idleThreadSize_ } }

/-- Member `ThreadPool::start(int initThreadSize)`.  The loop counters are
`int` compared against the `size_t` member `initThreadSize_`: when the member
exceeds `INT_MAX` (a negative argument converts to at least `2^64 - 2^31`) the
counter overflows, which is `none`. -/
def ThreadPool.start (initThreadSize : Int) (s : Sys Tag) : Option (Sys Tag) :=
  let s1 : Sys Tag :=
    { s with pool := { s.pool with
        isPoolRunning_ := true
        initThreadSize_ := toSizeT initThreadSize
        currThreadSize_ := toU32 initThreadSize } }
  if INT_MAX < s1.pool.initThreadSize_ then none
  else
    ThreadPool.startLaunch s1.pool.initThreadSize_ 0
      (ThreadPool.startCreate s1.pool.initThreadSize_ s1)

/-- The growth branch of `ThreadPool::submitTask` (the body of its `if`). -/
def ThreadPool.spawnCached (s : Sys Tag) : Sys Tag :=
  let ptr := (Thread.new s).1
  let s1 := (Thread.new s).2
  let threadId := ptr.getId
  let e := registryEmplace s1.pool.threads_ threadId ptr
  let s2 := Thread.start e.2 { s1 with pool := { s1.pool with threads_ := e.1 } }
  { s2 with pool := { s2.pool with
      idleThreadSize_ := u32Inc s2.pool.idleThreadSize_
      currThreadSize_ := u32Inc s2.pool.currThreadSize_ } }

/-- Member `ThreadPool::submitTask(sp)`, run as one critical section at the
moment `notFull_.wait_for` returns; the returned `Result` is constructed in the
caller's storage at address `ret`.  `wait_for` returns `false` exactly when
the predicate `taskSize_ < taskQueMaxThreshHold_` (an unsigned comparison) is
still false when the second has elapsed. -/
def ThreadPool.submitTask (sp : Nat) (ret : Nat) (s : Sys Tag) : Sys Tag :=
  if ¬ (s.pool.taskSize_ < toU32 s.pool.taskQueMaxThreshHold_) then
    Result.construct ret sp false s
  else
    let s1 : Sys Tag :=
      { s with
        pool := { s.pool with
          myTaskQue_ := s.pool.myTaskQue_ ++ [sp]
          taskSize_ := u32Inc s.pool.taskSize_ }
        accepted := s.accepted ++ [sp] }
    let s2 : Sys Tag :=
      if s1.pool.pollMode_ = PoolMode.MODE_CACHED
          ∧ s1.pool.taskSize_ > s1.pool.idleThreadSize_
          ∧ s1.pool.currThreadSize_ < toU32 s1.pool.threadMaxThreshHold_ then
        ThreadPool.spawnCached s1
      else s1
    Result.construct ret sp true s2

/-- The return paths of `threadFunc` for the worker at position `idx`:
`threads_.erase(threadId)`, and the OS thread ends. -/
def ThreadPool.workerExit (idx : Nat) (threadId : Int) (s : Sys Tag) : Sys Tag :=
  { s with
    pool := { s.pool with threads_ := registryErase s.pool.threads_ threadId }
    workers := s.workers.eraseIdx idx }

/-- The tail of the critical section of `threadFunc` once the queue is not
empty: `idleThreadSize_--`, take the front task, `taskSize_--`. -/
def ThreadPool.workerDequeue (idx : Nat) (w : Worker) (s : Sys Tag) : Option (Sys Tag) :=
  match s.pool.myTaskQue_ with
  | [] => none
  | task :: rest =>
    some { s with
      pool := { s.pool with
        idleThreadSize_ := u32Dec s.pool.idleThreadSize_
        myTaskQue_ := rest
        taskSize_ := u32Dec s.pool.taskSize_ }
      dequeued := s.dequeued ++ [task]
      workers := s.workers.set idx { w with phase := Phase.executing task } }

/-- One scheduling step of the worker at position `idx`, running
`ThreadPool::threadFunc(threadId)`.  `timedOut` says whether the pending
`wait_for` returned `cv_status::timeout`, `idleExpired` whether
`dur.count() >= THREAD_MAX_IDLE_TIME`.  The call `task->exec()`, made outside
the lock, takes two steps: `Task.execBegin`, then `Task.execEnd` followed by
`idleThreadSize_++`. -/
def ThreadPool.threadFunc (idx : Nat) (timedOut idleExpired : Bool) (s : Sys Tag) :
    Option (Sys Tag) :=
  match s.workers[idx]? with
  | none => none
  | some w =>
    match w.phase with
    | Phase.loopTop =>
      if s.pool.isPoolRunning_ then
        if s.pool.myTaskQue_.length = 0 then
          some { s with workers := s.workers.set idx { w with phase := Phase.waiting } }
        else ThreadPool.workerDequeue idx w s
      else some (ThreadPool.workerExit idx w.tid s)
    | Phase.waiting =>
      if s.pool.pollMode_ = PoolMode.MODE_CACHED ∧ timedOut = true ∧ idleExpired = true
          ∧ s.pool.currThreadSize_ > s.pool.initThreadSize_ then
        let s1 := ThreadPool.workerExit idx w.tid s
        some { s1 with pool := { s1.pool with
          currThreadSize_ := u32Dec s1.pool.currThreadSize_
          idleThreadSize_ := u32Dec s1.pool.idleThreadSize_ } }
      else if s.pool.isPoolRunning_ = false then some (ThreadPool.workerExit idx w.tid s)
      else if s.pool.myTaskQue_.length = 0 then some s
      else ThreadPool.workerDequeue idx w s
    | Phase.executing task =>
      some { (Task.execBegin task s).2 with
        workers := s.workers.set idx
          { w with phase := Phase.running task (Task.execBegin task s).1 } }
    | Phase.running task target =>
      match Task.execEnd task target s with
      | none => none
      | some s1 =>
        some { s1 with
          pool := { s1.pool with idleThreadSize_ := u32Inc s1.pool.idleThreadSize_ }
          workers := s1.workers.set idx { w with phase := Phase.loopTop } }

/-! ## Executions -/

/-- The calls a client and the scheduler can make on a system. -/
inductive Action where
  | submit (sp : Nat) (ret : Nat)
  | worker (idx : Nat) (timedOut idleExpired : Bool)
  | get (addr : Nat)
  | destroy (addr : Nat)
  deriving DecidableEq, Repr

/-- One action.  A `Result` can only be constructed in storage no live object
occupies. -/
def step (a : Action) (s : Sys Tag) : Option (Sys Tag) :=
  match a with
  | Action.submit sp ret =>
    match s.results ret with
    | some _ => none
    | none => some (ThreadPool.submitTask sp ret s)
  | Action.worker idx timedOut idleExpired => ThreadPool.threadFunc idx timedOut idleExpired s
  | Action.get addr => (Result.get addr s).map Prod.snd
  | Action.destroy addr => Result.destroy addr s

/-- A sequence of actions, each enabled in the state it is taken in. -/
def run : List Action → Sys Tag → Option (Sys Tag)
  | [], s => some s
  | a :: rest, s =>
    match step a s with
    | none => none
    | some s1 => run rest s1

/-- The configuration calls available before `start`. -/
inductive Setter where
  | setMode (mode : PoolMode)
  | setTaskQueMaxThreshHold (threshhold : Int)
  | setThreadSizeThreshHold (threshhold : Int)
  deriving DecidableEq, Repr

/-- One configuration call on the pool of a system. -/
def Setter.apply (c : Setter) (s : Sys Tag) : Sys Tag :=
  match c with
  | Setter.setMode mode => { s with pool := s.pool.setMode mode }
  | Setter.setTaskQueMaxThreshHold n => { s with pool := s.pool.setTaskQueMaxThreshHold n }
  | Setter.setThreadSizeThreshHold n => { s with pool := s.pool.setThreadSizeThreshHold n }

/-- A sequence of configuration calls. -/
def configure : List Setter → Sys Tag → Sys Tag
  | [], s => s
  | c :: rest, s => configure rest (c.apply s)

/-- A program state right after `ThreadPool pool;`: a freshly constructed pool,
the static id counter at `g`, no worker thread, no live `Result`, and the
units `runs` (unit `t` produces `runs t`) constructed by `Task::Task()`. -/
def Sys.fresh (g : Int) (runs : Nat → Any Tag) : Sys Tag :=
  { pool := ThreadPool.new
    generateId_ := g
    workers := []
    tasks := fun t => ⟨none, runs t, 0⟩
    results := fun _ => none
    accepted := []
    dequeued := [] }

/-- A pool that is constructed, configured by `cfg` and then started with
`start(n)`. -/
def boot (g : Int) (runs : Nat → Any Tag) (cfg : List Setter) (n : Int) : Option (Sys Tag) :=
  ThreadPool.start n (configure cfg (Sys.fresh g runs))

/-- The task a worker has dequeued and whose `exec()` it has not begun. -/
def Worker.held (w : Worker) : List Nat :=
  match w.phase with
  | Phase.executing task => [task]
  | _ => []

/-- The `Result` a worker inside `run()` will call `setVal` on. -/
def Worker.aim (w : Worker) : List Nat :=
  match w.phase with
  | Phase.running _ (some addr) => [addr]
  | _ => []

/-- Concatenation of what `f` yields for each worker. -/
def gather (f : Worker → List Nat) : List Worker → List Nat
  | [] => []
  | w :: rest => f w ++ gather f rest

/-- How many executions of unit `t` are still to begin: its occurrences in the
queue plus the workers that have dequeued it and not begun its `exec()`. -/
def pending (s : Sys Tag) (t : Nat) : Nat :=
  s.pool.myTaskQue_.count t + (gather Worker.held s.workers).count t

/-- How many workers are inside `run()` having read `addr` from `result_`. -/
def aimedAt (s : Sys Tag) (addr : Nat) : Nat :=
  (gather Worker.aim s.workers).count addr

/-- The discipline of a client: a unit is not handed to `submitTask` with room
in the queue while an earlier submission of it is still to begin, and a
`Result` is not destroyed while a worker inside `run()` has read its address
from `result_`. -/
def allowed (a : Action) (s : Sys Tag) : Bool :=
  match a with
  | Action.submit sp _ =>
    decide (pending s sp = 0)
      || !decide (s.pool.taskSize_ < toU32 s.pool.taskQueMaxThreshHold_)
  | Action.destroy addr => decide (aimedAt s addr = 0)
  | _ => true

/-- Every action of the sequence is `allowed` in the state it is taken in. -/
def disciplined : List Action → Sys Tag → Bool
  | [], _ => true
  | a :: rest, s =>
    allowed a s &&
      (match step a s with
       | some s1 => disciplined rest s1
       | none => true)

/-- The value types occurring in `main.cpp` and in `Result::get`. -/
inductive MainType where
  | uLong
  | constCharPtr
  deriving DecidableEq, Repr

instance : CxxTypes MainType where
  Val := fun T => match T with
    | MainType.uLong => Nat
    | MainType.constCharPtr => String
  constCharPtr := MainType.constCharPtr
  emptyLiteral := ""

/-- The ways a worker step can end. -/
inductive WorkerOutcome (idx : Nat) (w : Worker) (s s1 : Sys Tag) : Prop where
  | wait (hp : w.phase = Phase.loopTop ∨ w.phase = Phase.waiting)
      (h : s1 = { s with workers := s.workers.set idx { w with phase := Phase.waiting } })
  | dequeue (task : Nat) (rest : List Nat)
      (hp : w.phase = Phase.loopTop ∨ w.phase = Phase.waiting)
      (hq : s.pool.myTaskQue_ = task :: rest)
      (h : s1 = { s with
        pool := { s.pool with
          idleThreadSize_ := u32Dec s.pool.idleThreadSize_
          myTaskQue_ := rest
          taskSize_ := u32Dec s.pool.taskSize_ }
        dequeued := s.dequeued ++ [task]
        workers := s.workers.set idx { w with phase := Phase.executing task } })
  | exit (hp : w.phase = Phase.loopTop ∨ w.phase = Phase.waiting)
      (hrun : s.pool.isPoolRunning_ = false)
      (h : s1 = ThreadPool.workerExit idx w.tid s)
  | reclaim (hp : w.phase = Phase.loopTop ∨ w.phase = Phase.waiting)
      (hcurr : s.pool.currThreadSize_ > s.pool.initThreadSize_)
      (h : s1 = { s with
        pool := { s.pool with
          threads_ := registryErase s.pool.threads_ w.tid
          currThreadSize_ := u32Dec s.pool.currThreadSize_
          idleThreadSize_ := u32Dec s.pool.idleThreadSize_ }
        workers := s.workers.eraseIdx idx })
  | begin (task : Nat) (hp : w.phase = Phase.executing task)
      (h : s1 = { (Task.execBegin task s).2 with
        workers := s.workers.set idx
          { w with phase := Phase.running task (s.tasks task).result_ } })
  | finish (task : Nat) (target : Option Nat) (s2 : Sys Tag)
      (hp : w.phase = Phase.running task target)
      (hend : Task.execEnd task target s = some s2)
      (h : s1 = { s2 with
        pool := { s2.pool with idleThreadSize_ := u32Inc s2.pool.idleThreadSize_ }
        workers := s2.workers.set idx { w with phase := Phase.loopTop } })

/-- What a step can do to the pool and to the two history variables. -/
inductive PoolStep (s s1 : Sys Tag) : Prop where
  | same (hpool : s1.pool = s.pool) (hacc : s1.accepted = s.accepted)
      (hdeq : s1.dequeued = s.dequeued)
  | enqueue (sp : Nat)
      (hroom : s.pool.taskSize_ < toU32 s.pool.taskQueMaxThreshHold_)
      (hpool : s1.pool = { s.pool with
        myTaskQue_ := s.pool.myTaskQue_ ++ [sp]
        taskSize_ := u32Inc s.pool.taskSize_ })
      (hacc : s1.accepted = s.accepted ++ [sp]) (hdeq : s1.dequeued = s.dequeued)
  | enqueueGrow (sp : Nat) (registry : List (Int × Thread))
      (hroom : s.pool.taskSize_ < toU32 s.pool.taskQueMaxThreshHold_)
      (hmode : s.pool.pollMode_ = PoolMode.MODE_CACHED)
      (hcap : s.pool.currThreadSize_ < toU32 s.pool.threadMaxThreshHold_)
      (hpool : s1.pool = { s.pool with
        myTaskQue_ := s.pool.myTaskQue_ ++ [sp]
        taskSize_ := u32Inc s.pool.taskSize_
        threads_ := registry
        idleThreadSize_ := u32Inc s.pool.idleThreadSize_
        currThreadSize_ := u32Inc s.pool.currThreadSize_ })
      (hacc : s1.accepted = s.accepted ++ [sp]) (hdeq : s1.dequeued = s.dequeued)
  | dequeue (task : Nat) (rest : List Nat) (hq : s.pool.myTaskQue_ = task :: rest)
      (hpool : s1.pool = { s.pool with
        idleThreadSize_ := u32Dec s.pool.idleThreadSize_
        myTaskQue_ := rest
        taskSize_ := u32Dec s.pool.taskSize_ })
      (hacc : s1.accepted = s.accepted) (hdeq : s1.dequeued = s.dequeued ++ [task])
  | exit (registry : List (Int × Thread))
      (hpool : s1.pool = { s.pool with threads_ := registry })
      (hacc : s1.accepted = s.accepted) (hdeq : s1.dequeued = s.dequeued)
  | reclaim (registry : List (Int × Thread))
      (hcurr : s.pool.currThreadSize_ > s.pool.initThreadSize_)
      (hpool : s1.pool = { s.pool with
        threads_ := registry
        currThreadSize_ := u32Dec s.pool.currThreadSize_
        idleThreadSize_ := u32Dec s.pool.idleThreadSize_ })
      (hacc : s1.accepted = s.accepted) (hdeq : s1.dequeued = s.dequeued)
  | finish
      (hpool : s1.pool = { s.pool with idleThreadSize_ := u32Inc s.pool.idleThreadSize_ })
      (hacc : s1.accepted = s.accepted) (hdeq : s1.dequeued = s.dequeued)

/-! ## Concrete scenarios -/

/-- The units of the scenarios: unit `t` produces the `uLong` value `t`. -/
def mainRuns (t : Nat) : Any MainType := Any.ofData MainType.uLong t

/-- A growable pool with queue capacity 2 and worker cap 2. -/
def smallCfg : List Setter :=
  [Setter.setMode PoolMode.MODE_CACHED, Setter.setTaskQueMaxThreshHold 2,
   Setter.setThreadSizeThreshHold 2]

/-- The pool of `smallCfg` started with one worker. -/
def smallPool : Sys MainType :=
  (boot 0 mainRuns smallCfg 1).getD (Sys.fresh 0 mainRuns)

/-- Three submissions (the third finds the queue full), then the first worker
dequeues the first unit, begins and ends its `exec()`, the caller reads its
result and drops the channel. -/
def smallTrace : List Action :=
  [Action.submit 7 0, Action.submit 8 1, Action.submit 9 2,
   Action.worker 0 false false, Action.worker 0 false false,
   Action.worker 0 false false, Action.get 0, Action.destroy 0]

/-- The state `smallTrace` leads to. -/
def smallFinal : Sys MainType := (run smallTrace smallPool).getD smallPool

/-- The state after the first submission to `smallPool`. -/
def oneQueued : Sys MainType := ThreadPool.submitTask 7 0 smallPool

/-- The state after two submissions to `smallPool`: the queue is at capacity. -/
def twoQueued : Sys MainType := ThreadPool.submitTask 8 1 oneQueued

/-- The state after a third, rejected, submission. -/
def thirdRejected : Sys MainType := ThreadPool.submitTask 9 2 twoQueued

/-- Distinct units 7 and 8 on a fixed pool with one worker: the channel of
unit 7 is dropped while the worker is inside its `run()`, its storage is reused
for the channel of unit 8, then both executions end. -/
def raceTrace : List Action :=
  [Action.submit 7 0, Action.worker 0 false false, Action.worker 0 false false,
   Action.destroy 0, Action.submit 8 0,
   Action.worker 0 false false, Action.worker 0 false false,
   Action.worker 0 false false, Action.worker 0 false false]

/-! ## Machine arithmetic and lists -/

theorem toU32_lt (i : Int) : toU32 i < 4294967296 := by
  unfold toU32; omega

theorem toU32_le (i : Int) (h0 : 0 ≤ i) : (toU32 i : Int) ≤ i := by
  unfold toU32; omega

theorem u32Inc_of_lt (x : Nat) (h : x + 1 < 4294967296) : u32Inc x = x + 1 := by
  unfold u32Inc; omega

theorem u32Dec_of_pos (x : Nat) (h0 : 0 < x) (h : x < 4294967296) : u32Dec x = x - 1 := by
  unfold u32Dec; omega

theorem list_split_at {α : Type} (l : List α) (i : Nat) (w : α) (h : l[i]? = some w) :
    ∃ l1 l2, l = l1 ++ w :: l2 ∧ (∀ v, l.set i v = l1 ++ v :: l2) ∧ l.eraseIdx i = l1 ++ l2 := by
  induction l generalizing i with
  | nil => simp at h
  | cons x xs ih =>
    cases i with
    | zero =>
      simp at h
      subst h
      exact ⟨[], xs, by simp, by simp, by simp⟩
    | succ j =>
      simp at h
      obtain ⟨l1, l2, h1, h2, h3⟩ := ih j h
      refine ⟨x :: l1, l2, by simp [h1], ?_, by simp [h3]⟩
      intro v
      simp [h2 v]

/-! ## Frames of `start` -/

theorem startCreate_frame (k : Nat) (s : Sys Tag) :
    ThreadPool.startCreate k s =
      { s with
        pool := { s.pool with threads_ := (ThreadPool.startCreate k s).pool.threads_ }
        generateId_ := s.generateId_ + k } := by
  induction k generalizing s with
  | zero => simp [ThreadPool.startCreate]
  | succ k ih =>
    rw [ThreadPool.startCreate]
    rw [ih]
    simp [Thread.new]
    omega

theorem startLaunch_frame (k : Nat) (i : Int) (s s1 : Sys Tag)
    (h : ThreadPool.startLaunch k i s = some s1) :
    s1 = { s with
        pool := { s.pool with idleThreadSize_ := s1.pool.idleThreadSize_ }
        workers := s1.workers } := by
  induction k generalizing s i with
  | zero =>
    simp [ThreadPool.startLaunch] at h
    subst h
    rfl
  | succ k ih =>
    rw [ThreadPool.startLaunch] at h
    split at h
    · exact absurd h (by simp)
    · have := ih _ _ h
      rw [this]
      simp [Thread.start]

theorem start_frame (n : Int) (s s0 : Sys Tag) (h : ThreadPool.start n s = some s0) :
    s0 = { s with
        pool := { s.pool with
          isPoolRunning_ := true
          initThreadSize_ := toSizeT n
          currThreadSize_ := toU32 n
          threads_ := s0.pool.threads_
          idleThreadSize_ := s0.pool.idleThreadSize_ }
        generateId_ := s0.generateId_
        workers := s0.workers } := by
  unfold ThreadPool.start at h
  simp only at h
  split at h
  · exact absurd h (by simp)
  · have h1 := startLaunch_frame _ _ _ _ h
    rw [startCreate_frame] at h1
    rw [h1]

/-! ## Case analysis of one step -/

theorem workerDequeue_outcome (idx : Nat) (w : Worker) (s s1 : Sys Tag)
    (hp : w.phase = Phase.loopTop ∨ w.phase = Phase.waiting)
    (h : ThreadPool.workerDequeue idx w s = some s1) : WorkerOutcome idx w s s1 := by
  unfold ThreadPool.workerDequeue at h
  cases hq : s.pool.myTaskQue_ with
  | nil => rw [hq] at h; exact absurd h (by simp)
  | cons task rest =>
    rw [hq] at h
    simp only [Option.some.injEq] at h
    exact WorkerOutcome.dequeue task rest hp hq h.symm

theorem threadFunc_outcome (idx : Nat) (b1 b2 : Bool) (s s1 : Sys Tag)
    (h : ThreadPool.threadFunc idx b1 b2 s = some s1) :
    ∃ w, s.workers[idx]? = some w ∧ WorkerOutcome idx w s s1 := by
  unfold ThreadPool.threadFunc at h
  cases hw : s.workers[idx]? with
  | none => rw [hw] at h; exact absurd h (by simp)
  | some w =>
    rw [hw] at h
    refine ⟨w, rfl, ?_⟩
    cases hph : w.phase with
    | loopTop =>
      have hp : w.phase = Phase.loopTop ∨ w.phase = Phase.waiting := Or.inl hph
      simp only [hph] at h
      by_cases hr : s.pool.isPoolRunning_ = true
      · rw [if_pos hr] at h
        by_cases hq : s.pool.myTaskQue_.length = 0
        · rw [if_pos hq] at h
          simp only [Option.some.injEq] at h
          exact WorkerOutcome.wait hp h.symm
        · rw [if_neg hq] at h
          exact workerDequeue_outcome idx w s s1 hp h
      · rw [if_neg hr] at h
        simp only [Option.some.injEq] at h
        exact WorkerOutcome.exit hp (by simpa using hr) h.symm
    | waiting =>
      have hp : w.phase = Phase.loopTop ∨ w.phase = Phase.waiting := Or.inr hph
      simp only [hph] at h
      by_cases hc : s.pool.pollMode_ = PoolMode.MODE_CACHED ∧ b1 = true ∧ b2 = true
          ∧ s.pool.currThreadSize_ > s.pool.initThreadSize_
      · rw [if_pos hc] at h
        simp only [Option.some.injEq] at h
        exact WorkerOutcome.reclaim hp hc.2.2.2 h.symm
      · rw [if_neg hc] at h
        by_cases hr : s.pool.isPoolRunning_ = false
        · rw [if_pos hr] at h
          simp only [Option.some.injEq] at h
          exact WorkerOutcome.exit hp hr h.symm
        · rw [if_neg hr] at h
          by_cases hq : s.pool.myTaskQue_.length = 0
          · rw [if_pos hq] at h
            simp only [Option.some.injEq] at h
            refine WorkerOutcome.wait hp ?_
            subst h
            have hset : s.workers.set idx { w with phase := Phase.waiting } = s.workers := by
              have : ({ w with phase := Phase.waiting } : Worker) = w := by
                cases w; simp_all
              rw [this]
              obtain ⟨l1, l2, h1, h2, _⟩ := list_split_at s.workers idx w hw
              rw [h2 w, ← h1]
            rw [hset]
          · rw [if_neg hq] at h
            exact workerDequeue_outcome idx w s s1 hp h
    | executing task =>
      simp only [hph, Option.some.injEq] at h
      exact WorkerOutcome.begin task hph h.symm
    | running task target =>
      simp only [hph] at h
      cases hend : Task.execEnd task target s with
      | none => rw [hend] at h; exact absurd h (by simp)
      | some s2 =>
        rw [hend] at h
        simp only [Option.some.injEq] at h
        exact WorkerOutcome.finish task target s2 hph hend h.symm

theorem execEnd_frame (task : Nat) (target : Option Nat) (s s2 : Sys Tag)
    (h : Task.execEnd task target s = some s2) :
    s2.pool = s.pool ∧ s2.workers = s.workers ∧ s2.accepted = s.accepted ∧
    s2.dequeued = s.dequeued ∧ s2.generateId_ = s.generateId_ ∧ s2.tasks = s.tasks := by
  unfold Task.execEnd at h
  cases target with
  | none =>
    simp only [Option.some.injEq] at h
    subst h
    simp
  | some addr =>
    simp only [] at h
    unfold Result.setVal at h
    cases hres : s.results addr with
    | none => rw [hres] at h; exact absurd h (by simp)
    | some r =>
      rw [hres] at h
      simp only [Option.some.injEq] at h
      subst h
      simp

/-- Run without interference, the two halves of `Task::exec` a worker performs
compose to `Task.exec`. -/
theorem exec_eq_begin_end (task : Nat) (s : Sys Tag) :
    Task.exec task s
      = Task.execEnd task (Task.execBegin task s).1 (Task.execBegin task s).2 := by
  unfold Task.exec Task.execEnd Task.execBegin
  cases hr : (s.tasks task).result_ with
  | none => rfl
  | some addr =>
    simp only []
    congr 1
    simp [Task.callRun]

theorem get_frame (addr : Nat) (s s2 : Sys Tag) (v : Any Tag) (h : Result.get addr s = some (v, s2)) :
    s2.pool = s.pool ∧ s2.workers = s.workers ∧ s2.accepted = s.accepted ∧
    s2.dequeued = s.dequeued ∧ s2.generateId_ = s.generateId_ ∧ s2.tasks = s.tasks := by
  unfold Result.get at h
  cases hres : s.results addr with
  | none => rw [hres] at h; exact absurd h (by simp)
  | some r =>
    rw [hres] at h
    simp only [] at h
    by_cases hv : r.isValid_ = false
    · rw [if_pos hv] at h
      simp only [Option.some.injEq, Prod.mk.injEq] at h
      rw [← h.2]
      simp
    · rw [if_neg hv] at h
      cases hw : r.sem_.wait with
      | none => rw [hw] at h; exact absurd h (by simp)
      | some sem =>
        rw [hw] at h
        simp only [Option.some.injEq, Prod.mk.injEq] at h
        rw [← h.2]
        simp

theorem destroy_frame (addr : Nat) (s s2 : Sys Tag) (h : Result.destroy addr s = some s2) :
    s2.pool = s.pool ∧ s2.workers = s.workers ∧ s2.accepted = s.accepted ∧
    s2.dequeued = s.dequeued ∧ s2.generateId_ = s.generateId_ := by
  unfold Result.destroy at h
  cases hres : s.results addr with
  | none => rw [hres] at h; exact absurd h (by simp)
  | some r =>
    rw [hres] at h
    simp only [Option.some.injEq] at h
    subst h
    simp [Task.setResult]

theorem submitTask_reject (sp ret : Nat) (s : Sys Tag)
    (h : ¬ (s.pool.taskSize_ < toU32 s.pool.taskQueMaxThreshHold_)) :
    ThreadPool.submitTask sp ret s = Result.construct ret sp false s := by
  unfold ThreadPool.submitTask
  rw [if_pos h]

theorem submitTask_accept (sp ret : Nat) (s : Sys Tag)
    (h : s.pool.taskSize_ < toU32 s.pool.taskQueMaxThreshHold_) :
    ThreadPool.submitTask sp ret s =
      Result.construct ret sp true
        (if s.pool.pollMode_ = PoolMode.MODE_CACHED
            ∧ u32Inc s.pool.taskSize_ > s.pool.idleThreadSize_
            ∧ s.pool.currThreadSize_ < toU32 s.pool.threadMaxThreshHold_ then
          ThreadPool.spawnCached
            { s with
              pool := { s.pool with
                myTaskQue_ := s.pool.myTaskQue_ ++ [sp]
                taskSize_ := u32Inc s.pool.taskSize_ }
              accepted := s.accepted ++ [sp] }
        else
          { s with
            pool := { s.pool with
              myTaskQue_ := s.pool.myTaskQue_ ++ [sp]
              taskSize_ := u32Inc s.pool.taskSize_ }
            accepted := s.accepted ++ [sp] }) := by
  unfold ThreadPool.submitTask
  rw [if_neg (not_not.mpr h)]

/-- What one step does to the pool and to the two history variables. -/
theorem step_pool (a : Action) (s s1 : Sys Tag) (h : step a s = some s1) :
    PoolStep s s1 := by
  cases a with
  | submit sp ret =>
    unfold step at h
    simp only [] at h
    cases hres : s.results ret with
    | some r => rw [hres] at h; exact absurd h (by simp)
    | none =>
      rw [hres] at h
      simp only [Option.some.injEq] at h
      subst h
      by_cases hc : s.pool.taskSize_ < toU32 s.pool.taskQueMaxThreshHold_
      · rw [submitTask_accept sp ret s hc]
        by_cases hg : s.pool.pollMode_ = PoolMode.MODE_CACHED
            ∧ u32Inc s.pool.taskSize_ > s.pool.idleThreadSize_
            ∧ s.pool.currThreadSize_ < toU32 s.pool.threadMaxThreshHold_
        · rw [if_pos hg]
          exact PoolStep.enqueueGrow sp _ hc hg.1 hg.2.2 rfl rfl rfl
        · rw [if_neg hg]
          exact PoolStep.enqueue sp hc rfl rfl rfl
      · rw [submitTask_reject sp ret s hc]
        exact PoolStep.same rfl rfl rfl
  | worker idx b1 b2 =>
    unfold step at h
    simp only [] at h
    obtain ⟨w, hw, hout⟩ := threadFunc_outcome idx b1 b2 s s1 h
    cases hout with
    | wait hp h1 => subst h1; exact PoolStep.same rfl rfl rfl
    | dequeue task rest hp hq h1 => subst h1; exact PoolStep.dequeue task rest hq rfl rfl rfl
    | exit hp hrun h1 => subst h1; exact PoolStep.exit _ rfl rfl rfl
    | reclaim hp hcurr h1 => subst h1; exact PoolStep.reclaim _ hcurr rfl rfl rfl
    | begin task hp h1 => subst h1; exact PoolStep.same rfl rfl rfl
    | finish task target s2 hp hend h1 =>
      subst h1
      obtain ⟨e1, e2, e3, e4, e5, e6⟩ := execEnd_frame task target s s2 hend
      exact PoolStep.finish (by simp [e1]) e3 e4
  | get addr =>
    unfold step at h
    simp only [] at h
    cases hg : Result.get addr s with
    | none => rw [hg] at h; exact absurd h (by simp)
    | some p =>
      rw [hg] at h
      simp only [Option.map_some', Option.some.injEq] at h
      subst h
      obtain ⟨e1, e2, e3, e4, e5⟩ := get_frame addr s p.2 p.1 hg
      exact PoolStep.same e1 e3 e4
  | destroy addr =>
    unfold step at h
    simp only [] at h
    obtain ⟨e1, e2, e3, e4, e5⟩ := destroy_frame addr s s1 h
    exact PoolStep.same e1 e3 e4

/-! ## Invariants of the pool -/

theorem run_invariant (P : Sys Tag → Prop)
    (hstep : ∀ a s s1, step a s = some s1 → P s → P s1)
    (acts : List Action) (s s1 : Sys Tag) (hrun : run acts s = some s1) (h0 : P s) : P s1 := by
  induction acts generalizing s with
  | nil =>
    simp only [run, Option.some.injEq] at hrun
    exact hrun ▸ h0
  | cons a rest ih =>
    rw [run] at hrun
    cases hs : step a s with
    | none => rw [hs] at hrun; exact absurd hrun (by simp)
    | some s2 =>
      rw [hs] at hrun
      exact ih s2 hrun (hstep a s s2 hs h0)

theorem step_config (a : Action) (s s1 : Sys Tag) (h : step a s = some s1) :
    s1.pool.isPoolRunning_ = s.pool.isPoolRunning_ ∧
    s1.pool.pollMode_ = s.pool.pollMode_ ∧
    s1.pool.taskQueMaxThreshHold_ = s.pool.taskQueMaxThreshHold_ ∧
    s1.pool.threadMaxThreshHold_ = s.pool.threadMaxThreshHold_ ∧
    s1.pool.initThreadSize_ = s.pool.initThreadSize_ := by
  cases step_pool a s s1 h with
  | same hpool _ _ => rw [hpool]; simp
  | enqueue _ _ hpool _ _ => rw [hpool]; simp
  | enqueueGrow _ _ _ _ _ hpool _ _ => rw [hpool]; simp
  | dequeue _ _ _ hpool _ _ => rw [hpool]; simp
  | exit _ hpool _ _ => rw [hpool]; simp
  | reclaim _ _ hpool _ _ => rw [hpool]; simp
  | finish hpool _ _ => rw [hpool]; simp

theorem run_config (acts : List Action) (s0 s : Sys Tag) (h : run acts s0 = some s) :
    s.pool.isPoolRunning_ = s0.pool.isPoolRunning_ ∧
    s.pool.pollMode_ = s0.pool.pollMode_ ∧
    s.pool.taskQueMaxThreshHold_ = s0.pool.taskQueMaxThreshHold_ ∧
    s.pool.threadMaxThreshHold_ = s0.pool.threadMaxThreshHold_ ∧
    s.pool.initThreadSize_ = s0.pool.initThreadSize_ := by
  refine run_invariant (fun x =>
    x.pool.isPoolRunning_ = s0.pool.isPoolRunning_ ∧
    x.pool.pollMode_ = s0.pool.pollMode_ ∧
    x.pool.taskQueMaxThreshHold_ = s0.pool.taskQueMaxThreshHold_ ∧
    x.pool.threadMaxThreshHold_ = s0.pool.threadMaxThreshHold_ ∧
    x.pool.initThreadSize_ = s0.pool.initThreadSize_) ?_ acts s0 s h ⟨rfl, rfl, rfl, rfl, rfl⟩
  intro a x x1 hx hP
  obtain ⟨c1, c2, c3, c4, c5⟩ := step_config a x x1 hx
  exact ⟨c1.trans hP.1, c2.trans hP.2.1, c3.trans hP.2.2.1, c4.trans hP.2.2.2.1,
    c5.trans hP.2.2.2.2⟩

theorem step_fifo (a : Action) (s s1 : Sys Tag) (h : step a s = some s1)
    (hinv : s.accepted = s.dequeued ++ s.pool.myTaskQue_) :
    s1.accepted = s1.dequeued ++ s1.pool.myTaskQue_ := by
  cases step_pool a s s1 h with
  | same hpool hacc hdeq => rw [hpool, hacc, hdeq]; exact hinv
  | enqueue _ _ hpool hacc hdeq => rw [hpool, hacc, hdeq, hinv]; simp
  | enqueueGrow _ _ _ _ _ hpool hacc hdeq => rw [hpool, hacc, hdeq, hinv]; simp
  | dequeue _ _ hq hpool hacc hdeq => rw [hpool, hacc, hdeq, hinv, hq]; simp
  | exit _ hpool hacc hdeq => rw [hpool, hacc, hdeq]; exact hinv
  | reclaim _ _ hpool hacc hdeq => rw [hpool, hacc, hdeq]; exact hinv
  | finish hpool hacc hdeq => rw [hpool, hacc, hdeq]; exact hinv

theorem step_size (a : Action) (s s1 : Sys Tag) (h : step a s = some s1)
    (hinv : s.pool.taskSize_ = s.pool.myTaskQue_.length ∧
      s.pool.taskSize_ ≤ toU32 s.pool.taskQueMaxThreshHold_) :
    s1.pool.taskSize_ = s1.pool.myTaskQue_.length ∧
      s1.pool.taskSize_ ≤ toU32 s1.pool.taskQueMaxThreshHold_ := by
  obtain ⟨h1, h2⟩ := hinv
  have hlt := toU32_lt s.pool.taskQueMaxThreshHold_
  cases step_pool a s s1 h with
  | same hpool _ _ => rw [hpool]; exact ⟨h1, h2⟩
  | enqueue _ hroom hpool _ _ =>
    rw [hpool]
    simp only [List.length_append, List.length_singleton]
    rw [u32Inc_of_lt _ (by omega)]
    omega
  | enqueueGrow _ _ hroom _ _ hpool _ _ =>
    rw [hpool]
    simp only [List.length_append, List.length_singleton]
    rw [u32Inc_of_lt _ (by omega)]
    omega
  | dequeue _ _ hq hpool _ _ =>
    rw [hpool]
    rw [hq] at h1
    simp only [List.length_cons] at h1
    simp only
    rw [u32Dec_of_pos _ (by omega) (by omega)]
    omega
  | exit _ hpool _ _ => rw [hpool]; exact ⟨h1, h2⟩
  | reclaim _ _ hpool _ _ => rw [hpool]; exact ⟨h1, h2⟩
  | finish hpool _ _ => rw [hpool]; exact ⟨h1, h2⟩

theorem step_curr (a : Action) (s s1 : Sys Tag) (h : step a s = some s1)
    (hinv : (s.pool.currThreadSize_ : Int) ≤ s.pool.threadMaxThreshHold_) :
    (s1.pool.currThreadSize_ : Int) ≤ s1.pool.threadMaxThreshHold_ := by
  cases step_pool a s s1 h with
  | same hpool _ _ => rw [hpool]; exact hinv
  | enqueue _ _ hpool _ _ => rw [hpool]; exact hinv
  | enqueueGrow _ _ _ _ hcap hpool _ _ =>
    rw [hpool]
    simp only
    have h0 : (0 : Int) ≤ s.pool.threadMaxThreshHold_ := by omega
    have hle := toU32_le _ h0
    have hlt := toU32_lt s.pool.threadMaxThreshHold_
    rw [u32Inc_of_lt _ (by omega)]
    omega
  | dequeue _ _ _ hpool _ _ => rw [hpool]; exact hinv
  | exit _ hpool _ _ => rw [hpool]; exact hinv
  | reclaim _ hcurr hpool _ _ =>
    rw [hpool]
    simp only
    unfold u32Dec
    omega
  | finish hpool _ _ => rw [hpool]; exact hinv

theorem configure_frame (cfg : List Setter) (s : Sys Tag) (hr : s.pool.isPoolRunning_ = false) :
    configure cfg s =
      { s with pool := { s.pool with
          pollMode_ := (configure cfg s).pool.pollMode_
          taskQueMaxThreshHold_ := (configure cfg s).pool.taskQueMaxThreshHold_
          threadMaxThreshHold_ := (configure cfg s).pool.threadMaxThreshHold_ } } := by
  induction cfg generalizing s with
  | nil => rfl
  | cons c rest ih =>
    rw [configure]
    cases c with
    | setMode mode =>
      have e : Setter.apply (Setter.setMode mode) s
          = { s with pool := { s.pool with pollMode_ := mode } } := by
        simp [Setter.apply, ThreadPool.setMode, ThreadPool.checkRunningState, hr]
      rw [e]
      exact ih _ hr
    | setTaskQueMaxThreshHold k =>
      by_cases hm : s.pool.pollMode_ = PoolMode.MODE_FIXED
      · have e : Setter.apply (Setter.setTaskQueMaxThreshHold k) s = s := by
          simp [Setter.apply, ThreadPool.setTaskQueMaxThreshHold, ThreadPool.checkRunningState,
            hr, hm]
        rw [e]
        exact ih s hr
      · have e : Setter.apply (Setter.setTaskQueMaxThreshHold k) s
            = { s with pool := { s.pool with taskQueMaxThreshHold_ := k } } := by
          simp [Setter.apply, ThreadPool.setTaskQueMaxThreshHold, ThreadPool.checkRunningState,
            hr, hm]
        rw [e]
        exact ih _ hr
    | setThreadSizeThreshHold k =>
      have e : Setter.apply (Setter.setThreadSizeThreshHold k) s
          = { s with pool := { s.pool with threadMaxThreshHold_ := k } } := by
        simp [Setter.apply, ThreadPool.setThreadSizeThreshHold, ThreadPool.checkRunningState, hr]
      rw [e]
      exact ih _ hr

theorem boot_frame (g : Int) (runs : Nat → Any Tag) (cfg : List Setter) (n : Int) (s0 : Sys Tag)
    (h : boot g runs cfg n = some s0) :
    s0.pool.myTaskQue_ = [] ∧ s0.pool.taskSize_ = 0 ∧ s0.accepted = [] ∧ s0.dequeued = [] ∧
    s0.pool.isPoolRunning_ = true ∧ s0.pool.currThreadSize_ = toU32 n ∧
    s0.pool.initThreadSize_ = toSizeT n ∧
    s0.pool.taskQueMaxThreshHold_ = (configure cfg (Sys.fresh g runs)).pool.taskQueMaxThreshHold_ ∧
    s0.pool.threadMaxThreshHold_ = (configure cfg (Sys.fresh g runs)).pool.threadMaxThreshHold_ ∧
    s0.pool.pollMode_ = (configure cfg (Sys.fresh g runs)).pool.pollMode_ ∧
    s0.tasks = (fun t => ⟨none, runs t, 0⟩) ∧ s0.results = (fun _ => none) := by
  unfold boot at h
  have h1 := start_frame n _ s0 h
  have h2 := configure_frame cfg (Sys.fresh g runs) rfl
  rw [h2] at h1
  rw [h1]
  simp [Sys.fresh, ThreadPool.new]

/-! ## Units and channels -/

theorem registryFind_append (m : List (Int × Thread)) (k0 : Int) (v : Thread) (k : Int) :
    registryFind (m ++ [(k0, v)]) k =
      match registryFind m k with
      | some t => some t
      | none => if k0 = k then some v else none := by
  induction m with
  | nil => simp [registryFind]
  | cons e rest ih =>
    obtain ⟨k1, v1⟩ := e
    simp only [List.cons_append, registryFind]
    by_cases h : k1 = k
    · simp [h]
    · simp [h, ih]

/-- The entries the first loop of `start` registers from counter value `g`. -/
theorem startCreate_registry (k : Nat) (s : Sys Tag)
    (hfree : ∀ j : Nat, j < k → registryFind s.pool.threads_ (s.generateId_ + j) = none) :
    (ThreadPool.startCreate k s).pool.threads_ =
      s.pool.threads_ ++
        (List.range k).map (fun j : Nat => ((s.generateId_ + j, ⟨s.generateId_ + j⟩) : Int × Thread)) := by
  induction k generalizing s with
  | zero => simp [ThreadPool.startCreate]
  | succ k ih =>
    rw [ThreadPool.startCreate]
    have h0 : registryFind s.pool.threads_ s.generateId_ = none := by
      have := hfree 0 (by omega)
      simpa using this
    simp only [Thread.new, Thread.getId, registryEmplace, h0]
    rw [ih]
    · simp only [List.range_succ_eq_map, List.map_cons, List.map_map, List.append_assoc,
        List.singleton_append]
      congr 2
      · simp
      · apply List.map_congr_left
        intro j _
        have e : s.generateId_ + 1 + (j : Int) = s.generateId_ + ((Nat.succ j : Nat) : Int) := by
          push_cast; omega
        simp only [Function.comp]
        rw [e]
    · intro j hj
      simp only
      rw [registryFind_append]
      have h1 := hfree (j + 1) (by omega)
      have e : s.generateId_ + 1 + (j : Int) = s.generateId_ + ((j + 1 : Nat) : Int) := by
        push_cast; omega
      rw [e, h1]
      have hne : ¬ s.generateId_ = s.generateId_ + ((j + 1 : Nat) : Int) := by
        push_cast; omega
      simp only []
      rw [if_neg hne]

theorem registryFind_range_none (g : Int) (k : Nat) (key : Int)
    (hkey : key < g ∨ g + k ≤ key) :
    registryFind ((List.range k).map
      (fun j : Nat => ((g + j, ⟨g + j⟩) : Int × Thread))) key = none := by
  induction k with
  | zero => simp [registryFind]
  | succ k ih =>
    rw [List.range_succ, List.map_append, List.map_singleton, registryFind_append,
      ih (by push_cast at hkey; omega)]
    have : ¬ g + (k : Int) = key := by push_cast at hkey; omega
    simp only []
    rw [if_neg this]

theorem registryFind_range_some (k : Nat) (j : Nat) (hj : j < k) :
    registryFind ((List.range k).map
      (fun i : Nat => (((0 : Int) + i, ⟨(0 : Int) + i⟩) : Int × Thread))) (j : Int)
      = some ⟨(j : Int)⟩ := by
  induction k with
  | zero => omega
  | succ k ih =>
    rw [List.range_succ, List.map_append, List.map_singleton, registryFind_append]
    by_cases h : j < k
    · rw [ih h]
    · have e : j = k := by omega
      subst e
      rw [registryFind_range_none 0 j j (Or.inr (by omega))]
      simp

/-- With the id counter above 0, `start(n)` for `n ≥ 1` on a freshly constructed
and configured pool dereferences a null pointer. -/
theorem start_fails_of_counter_pos (g : Int) (runs : Nat → Any Tag) (cfg : List Setter)
    (n : Int) (hg : 0 < g) (hn : 0 < n) (hmax : n ≤ 2147483647) :
    boot g runs cfg n = none := by
  unfold boot ThreadPool.start
  have hsz : toSizeT n = n.toNat := by unfold toSizeT; omega
  simp only [hsz]
  have hle : ¬ INT_MAX < n.toNat := by unfold INT_MAX; omega
  rw [if_neg hle]
  obtain ⟨k, hk⟩ : ∃ k, n.toNat = k + 1 := ⟨n.toNat - 1, by omega⟩
  rw [hk, ThreadPool.startLaunch]
  have hcfg := configure_frame cfg (Sys.fresh g runs) rfl
  have hreg : (ThreadPool.startCreate (k + 1)
      ({ configure cfg (Sys.fresh g runs) with
        pool := { (configure cfg (Sys.fresh g runs)).pool with
          isPoolRunning_ := true
          initThreadSize_ := k + 1
          currThreadSize_ := toU32 n } } : Sys Tag)).pool.threads_ =
      (List.range (k + 1)).map (fun j : Nat => ((g + j, ⟨g + j⟩) : Int × Thread)) := by
    rw [startCreate_registry]
    · rw [hcfg]
      simp [Sys.fresh, ThreadPool.new]
    · intro j _
      rw [hcfg]
      simp [Sys.fresh, ThreadPool.new, registryFind]
  rw [hreg, registryFind_range_none g (k + 1) 0 (Or.inl hg)]

theorem startLaunch_ok (k : Nat) (i : Nat) (s : Sys Tag)
    (hreg : ∀ j : Nat, j < k →
      registryFind s.pool.threads_ ((i + j : Nat) : Int) = some ⟨((i + j : Nat) : Int)⟩)
    (hidle : s.pool.idleThreadSize_ + k < 4294967296) :
    ThreadPool.startLaunch k (i : Int) s =
      some { s with
        pool := { s.pool with idleThreadSize_ := s.pool.idleThreadSize_ + k }
        workers := s.workers ++
          (List.range k).map (fun j : Nat => (⟨((i + j : Nat) : Int), Phase.loopTop⟩ : Worker)) } := by
  induction k generalizing i s with
  | zero => simp [ThreadPool.startLaunch]
  | succ k ih =>
    rw [ThreadPool.startLaunch]
    have h0 := hreg 0 (by omega)
    simp only [Nat.add_zero] at h0
    rw [h0]
    simp only []
    have e : (i : Int) + 1 = ((i + 1 : Nat) : Int) := by push_cast; rfl
    rw [e, ih]
    · simp only [Thread.start, List.range_succ_eq_map, List.map_cons, List.map_map,
        List.append_assoc, List.singleton_append, Nat.add_zero]
      rw [u32Inc_of_lt _ (by omega)]
      congr 2
      · congr 1
        omega
      · congr 2
        apply List.map_congr_left
        intro j _
        simp only [Function.comp]
        congr 2
        omega
    · intro j hj
      have := hreg (j + 1) (by omega)
      simp only [Thread.start]
      rw [show i + 1 + j = i + (j + 1) by omega]
      exact this
    · simp only [Thread.start]
      rw [u32Inc_of_lt _ (by omega)]
      omega

/-- With the id counter at 0, `start(n)` on a freshly constructed and configured
pool registers `n` workers under the ids `0 .. n-1`, starts each of them, sets
the initial, current and idle worker counts to `n` and sets the running
flag. -/
theorem start_ok_of_counter_zero (runs : Nat → Any Tag) (cfg : List Setter) (n : Nat)
    (hmax : n ≤ 2147483647) :
    ∃ s0, boot 0 runs cfg (n : Int) = some s0 ∧
      s0.pool.threads_ = (List.range n).map (fun i : Nat => (((i : Int), ⟨(i : Int)⟩) : Int × Thread)) ∧
      s0.workers = (List.range n).map (fun i : Nat => (⟨(i : Int), Phase.loopTop⟩ : Worker)) ∧
      s0.pool.initThreadSize_ = n ∧ s0.pool.currThreadSize_ = n ∧
      s0.pool.idleThreadSize_ = n ∧ s0.pool.isPoolRunning_ = true := by
  unfold boot ThreadPool.start
  have hsz : toSizeT (n : Int) = n := by unfold toSizeT; omega
  have hu : toU32 (n : Int) = n := by unfold toU32; omega
  simp only [hsz, hu]
  have hle : ¬ INT_MAX < n := by unfold INT_MAX; omega
  rw [if_neg hle]
  have hcfg := configure_frame cfg (Sys.fresh 0 runs) rfl
  have hframe := startCreate_frame n
    ({ configure cfg (Sys.fresh 0 runs) with
        pool := { (configure cfg (Sys.fresh 0 runs)).pool with
          isPoolRunning_ := true
          initThreadSize_ := n
          currThreadSize_ := n } } : Sys Tag)
  have hreg : (ThreadPool.startCreate n
      ({ configure cfg (Sys.fresh 0 runs) with
        pool := { (configure cfg (Sys.fresh 0 runs)).pool with
          isPoolRunning_ := true
          initThreadSize_ := n
          currThreadSize_ := n } } : Sys Tag)).pool.threads_ =
      (List.range n).map (fun j : Nat => (((0 : Int) + j, ⟨(0 : Int) + j⟩) : Int × Thread)) := by
    rw [startCreate_registry]
    · rw [hcfg]
      simp [Sys.fresh, ThreadPool.new]
    · intro j _
      rw [hcfg]
      simp [Sys.fresh, ThreadPool.new, registryFind]
  have hidle0 : (ThreadPool.startCreate n
      ({ configure cfg (Sys.fresh 0 runs) with
        pool := { (configure cfg (Sys.fresh 0 runs)).pool with
          isPoolRunning_ := true
          initThreadSize_ := n
          currThreadSize_ := n } } : Sys Tag)).pool.idleThreadSize_ = 0 := by
    rw [hframe, hcfg]
    rfl
  have hw0 : (ThreadPool.startCreate n
      ({ configure cfg (Sys.fresh 0 runs) with
        pool := { (configure cfg (Sys.fresh 0 runs)).pool with
          isPoolRunning_ := true
          initThreadSize_ := n
          currThreadSize_ := n } } : Sys Tag)).workers = [] := by
    rw [hframe, hcfg]
    rfl
  have hl := startLaunch_ok n 0 _ (by
      intro j hj
      rw [hreg]
      have := registryFind_range_some n j hj
      simpa using this) (by rw [hidle0]; omega)
  simp only [Nat.cast_zero] at hl
  rw [hl]
  refine ⟨_, rfl, ?_, ?_, ?_, ?_, ?_, ?_⟩
  · simp only [hreg]
    apply List.map_congr_left
    intro j _
    simp
  · simp only [hw0, List.nil_append]
    apply List.map_congr_left
    intro j _
    simp
  · rw [hframe]
  · rw [hframe]
  · simp only [hidle0]
    omega
  · rw [hframe]

/-- C1: for every type `T` and value `x`, `Any(x).cast_<T>()` returns exactly
`x`; `cast_<U>()` fails if and only if the carrier is default-constructed or was
built from a value of a type other than `U`; and the only failure is the
type-mismatch message. -/
theorem any_cast_roundtrip (Tag : Type) [CxxTypes Tag] [DecidableEq Tag] :
    (∀ (T : Tag) (x : CxxTypes.Val T), (Any.ofData T x).cast_ T = Except.ok x) ∧
    (∀ (a : Any Tag) (U : Tag),
      a.cast_ U = Except.error typeMismatch ↔
        (a = Any.default ∨ ∃ (T : Tag) (x : CxxTypes.Val T), T ≠ U ∧ a = Any.ofData T x)) ∧
    (∀ (a : Any Tag) (U : Tag) (e : String), a.cast_ U = Except.error e → e = typeMismatch) := by
  refine ⟨?_, ?_, ?_⟩
  · intro T x
    simp [Any.ofData, Any.cast_]
  · intro a U
    rcases a with ⟨_ | ⟨T, x⟩⟩
    · simp [Any.cast_, Any.default]
    · by_cases h : T = U
      · subst h
        simp [Any.cast_, Any.default, Any.ofData]
        intro U hne heq
        exact absurd heq.symm hne
      · simp only [Any.cast_, h, dite_false, Any.default, Any.ofData]
        constructor
        · intro _
          exact Or.inr ⟨T, x, h, rfl⟩
        · intro _
          trivial
  · intro a U e h
    rcases a with ⟨_ | ⟨T, x⟩⟩
    · simp [Any.cast_] at h
      exact h.symm
    · by_cases hT : T = U
      · subst hT
        simp [Any.cast_] at h
      · simp [Any.cast_, hT] at h
        exact h.symm

/-- C2: for a unit whose `run()` produces `v` and a valid channel bound to it
with an empty slot and readiness counter 0, `Task::exec` calls `run()` exactly
once and publishes `v` (slot holds `v`, counter 1, one `setVal`); the following
`Result::get()` returns `v`, brings the counter back to 0 and empties the
slot. -/
theorem exec_publishes_then_get_consumes (s : Sys Tag) (task addr : Nat) (r : Result Tag)
    (hbind : (s.tasks task).result_ = some addr)
    (hres : s.results addr = some r)
    (_htask : r.task_ = task)
    (hvalid : r.isValid_ = true)
    (_hslot : r.any_ = Any.default)
    (hsem : r.sem_ = ⟨0⟩) :
    ∃ s1, Task.exec task s = some s1 ∧
      (s1.tasks task).runCalls = (s.tasks task).runCalls + 1 ∧
      s1.results addr =
        some { r with
          any_ := (s.tasks task).run
          sem_ := ⟨1⟩
          setValCalls := r.setValCalls + 1 } ∧
      ∃ s2, Result.get addr s1 = some ((s.tasks task).run, s2) ∧
        s2.results addr =
          some { r with any_ := Any.default, sem_ := ⟨0⟩, setValCalls := r.setValCalls + 1 } ∧
        (s2.tasks task).runCalls = (s.tasks task).runCalls + 1 := by
  simp [Task.exec, hbind, Result.setVal, Task.callRun, hres, Result.get, hvalid, hsem,
    Semaphore.post, Semaphore.wait]

/-- Witness of C2 on the first unit submitted to `smallPool`. -/
theorem exec_publishes_then_get_consumes_witness :
    ∃ s1, Task.exec 7 oneQueued = some s1 ∧
      (s1.tasks 7).runCalls = (oneQueued.tasks 7).runCalls + 1 ∧
      s1.results 0 = some ⟨mainRuns 7, ⟨1⟩, 7, true, 1⟩ ∧
      ∃ s2, Result.get 0 s1 = some (mainRuns 7, s2) ∧
        s2.results 0 = some ⟨Any.default, ⟨0⟩, 7, true, 1⟩ ∧
        (s2.tasks 7).runCalls = (oneQueued.tasks 7).runCalls + 1 :=
  exec_publishes_then_get_consumes oneQueued 7 0 ⟨Any.default, ⟨0⟩, 7, true, 0⟩
    rfl rfl rfl rfl rfl rfl

/-- C4 as stated fails: `get()` on the invalid channel of the rejected third
submission returns a carrier that holds a payload, from which
`cast_<const char*>()` yields `""`, while a default-constructed carrier holds
none and fails that cast. -/
theorem get_invalid_is_not_default_carrier :
    (Result.get 2 thirdRejected).map (fun p => p.1.ptr_.isSome) = some true ∧
    (Any.default : Any MainType).ptr_.isSome = false ∧
    (Result.get 2 thirdRejected).map (fun p => p.1.cast_ MainType.constCharPtr)
      = some (Except.ok "") ∧
    (Any.default : Any MainType).cast_ MainType.constCharPtr = Except.error typeMismatch :=
  ⟨rfl, rfl, rfl, rfl⟩

/-- C4, amended: on a channel constructed with validity false, `Result::get()`
returns without waiting, whatever the readiness counter, the carrier built from
the literal `""` (a `const char*` payload, not a default-constructed carrier),
and leaves the whole state, hence the counter and the slot, unchanged. -/
theorem get_invalid_returns_literal (s : Sys Tag) (addr : Nat) (r : Result Tag)
    (hres : s.results addr = some r) (hinv : r.isValid_ = false) :
    Result.get addr s = some (Any.ofData CxxTypes.constCharPtr CxxTypes.emptyLiteral, s) ∧
    Any.ofData CxxTypes.constCharPtr CxxTypes.emptyLiteral ≠ (Any.default : Any Tag) := by
  constructor
  · simp [Result.get, hres, hinv]
  · intro h
    simp [Any.ofData, Any.default] at h

/-- Witness of the amended C4 on the rejected third submission. -/
theorem get_invalid_returns_literal_witness :
    Result.get 2 thirdRejected
      = some (Any.ofData MainType.constCharPtr "", thirdRejected) ∧
    Any.ofData MainType.constCharPtr "" ≠ (Any.default : Any MainType) :=
  get_invalid_returns_literal thirdRejected 2 ⟨Any.default, ⟨0⟩, 9, false, 0⟩ rfl rfl

/-- C5: from a state with an empty queue and empty histories, after any
sequence of enabled actions the units dequeued so far are a prefix of the units
accepted so far (the rest being exactly the queue), so the `k`-th unit dequeued
is the `k`-th unit accepted. -/
theorem dequeue_order_is_submission_order (s0 s : Sys Tag) (acts : List Action)
    (hq : s0.pool.myTaskQue_ = []) (ha : s0.accepted = []) (hd : s0.dequeued = [])
    (hrun : run acts s0 = some s) :
    s.dequeued <+: s.accepted ∧
    s.accepted = s.dequeued ++ s.pool.myTaskQue_ ∧
    (∀ (k t : Nat), s.dequeued[k]? = some t → s.accepted[k]? = some t) := by
  have hinv : s.accepted = s.dequeued ++ s.pool.myTaskQue_ :=
    run_invariant (fun x => x.accepted = x.dequeued ++ x.pool.myTaskQue_)
      (fun a x x1 hx hP => step_fifo a x x1 hx hP) acts s0 s hrun (by simp [hq, ha, hd])
  refine ⟨⟨s.pool.myTaskQue_, hinv.symm⟩, hinv, ?_⟩
  intro k t hk
  rw [hinv]
  have hlt : k < s.dequeued.length := by
    by_contra hge
    rw [List.getElem?_eq_none (by omega)] at hk
    exact absurd hk (by simp)
  rw [List.getElem?_append_left hlt]
  exact hk

/-- Witness of C5 on `smallTrace`. -/
theorem dequeue_order_is_submission_order_witness :
    smallFinal.dequeued <+: smallFinal.accepted ∧
    smallFinal.accepted = smallFinal.dequeued ++ smallFinal.pool.myTaskQue_ ∧
    (∀ (k t : Nat), smallFinal.dequeued[k]? = some t → smallFinal.accepted[k]? = some t) :=
  dequeue_order_is_submission_order smallPool smallFinal smallTrace rfl rfl rfl rfl

/-- C6 as stated fails: with the queue capacity configured to `-1` on a
growable pool, one submission after `start(1)` is accepted (the comparison in
`submitTask` is unsigned) and the size counter, 1, exceeds the configured
capacity. -/
theorem size_exceeds_negative_capacity :
    ((boot 0 mainRuns
        [Setter.setMode PoolMode.MODE_CACHED, Setter.setTaskQueMaxThreshHold (-1)] 1).bind
      (run [Action.submit 7 0])).map
        (fun s => (s.pool.taskSize_, s.pool.myTaskQue_, s.pool.taskQueMaxThreshHold_,
          decide ((s.pool.taskSize_ : Int) ≤ s.pool.taskQueMaxThreshHold_)))
      = some (1, [7], -1, false) := by
  decide

/-- C6, amended: in every state reachable from a configured and started pool
the size counter equals the length of the queue, equals the number of accepted
units minus the number of dequeued units, and is at most the configured
capacity converted to `unsigned` (the configuration is frozen by `start`);
hence `0 ≤ size ≤ capacity` whenever the configured capacity is not
negative. -/
theorem queue_size_invariant (g : Int) (runs : Nat → Any Tag) (cfg : List Setter) (n : Int)
    (s0 s : Sys Tag) (acts : List Action)
    (hboot : boot g runs cfg n = some s0) (hrun : run acts s0 = some s) :
    s.pool.taskSize_ = s.pool.myTaskQue_.length ∧
    s.accepted.length = s.dequeued.length + s.pool.taskSize_ ∧
    s.pool.taskSize_ = s.accepted.length - s.dequeued.length ∧
    s.pool.taskQueMaxThreshHold_ = (configure cfg (Sys.fresh g runs)).pool.taskQueMaxThreshHold_ ∧
    s.pool.taskSize_ ≤ toU32 s.pool.taskQueMaxThreshHold_ ∧
    (0 ≤ s.pool.taskQueMaxThreshHold_ →
      (0 : Int) ≤ s.pool.taskSize_ ∧ (s.pool.taskSize_ : Int) ≤ s.pool.taskQueMaxThreshHold_) := by
  obtain ⟨hq, hsz, hacc, hdeq, _, _, _, hcap, _, _, _, _⟩ := boot_frame g runs cfg n s0 hboot
  have hfifo : s.accepted = s.dequeued ++ s.pool.myTaskQue_ :=
    run_invariant (fun x => x.accepted = x.dequeued ++ x.pool.myTaskQue_)
      (fun a x x1 hx hP => step_fifo a x x1 hx hP) acts s0 s hrun (by simp [hq, hacc, hdeq])
  have hsize : s.pool.taskSize_ = s.pool.myTaskQue_.length ∧
      s.pool.taskSize_ ≤ toU32 s.pool.taskQueMaxThreshHold_ :=
    run_invariant (fun x => x.pool.taskSize_ = x.pool.myTaskQue_.length ∧
        x.pool.taskSize_ ≤ toU32 x.pool.taskQueMaxThreshHold_)
      (fun a x x1 hx hP => step_size a x x1 hx hP) acts s0 s hrun (by simp [hq, hsz])
  have hcfg := (run_config acts s0 s hrun).2.2.1
  have hlen : s.accepted.length = s.dequeued.length + s.pool.taskSize_ := by
    rw [hfifo, List.length_append, hsize.1]
  refine ⟨hsize.1, hlen, by omega, hcfg.trans hcap, hsize.2, ?_⟩
  intro h0
  have := toU32_le _ h0
  omega

/-- Witness of the amended C6 on `smallTrace`. -/
theorem queue_size_invariant_witness :
    boot 0 mainRuns smallCfg 1 = some smallPool ∧ run smallTrace smallPool = some smallFinal ∧
    smallFinal.pool.taskSize_ = smallFinal.pool.myTaskQue_.length ∧
    smallFinal.accepted.length = smallFinal.dequeued.length + smallFinal.pool.taskSize_ ∧
    smallFinal.pool.taskSize_ = smallFinal.accepted.length - smallFinal.dequeued.length ∧
    smallFinal.pool.taskQueMaxThreshHold_
      = (configure smallCfg (Sys.fresh 0 mainRuns)).pool.taskQueMaxThreshHold_ ∧
    smallFinal.pool.taskSize_ ≤ toU32 smallFinal.pool.taskQueMaxThreshHold_ ∧
    (0 ≤ smallFinal.pool.taskQueMaxThreshHold_ →
      (0 : Int) ≤ smallFinal.pool.taskSize_ ∧
      (smallFinal.pool.taskSize_ : Int) ≤ smallFinal.pool.taskQueMaxThreshHold_) :=
  ⟨rfl, rfl, queue_size_invariant 0 mainRuns smallCfg 1 smallPool smallFinal smallTrace rfl rfl⟩

/-- For a pool started with an initial worker count `n` that does not exceed
its worker cap `M`, the current worker count never exceeds `M` in any state
reachable by submissions and worker steps (and `M` is frozen): the growth
branch of `submitTask` respects the cap. -/
theorem curr_within_worker_cap (n : Int) (pre s0 s : Sys Tag) (acts : List Action)
    (hstart : ThreadPool.start n pre = some s0) (hrun : run acts s0 = some s)
    (hn : 0 ≤ n) (hcap : n ≤ pre.pool.threadMaxThreshHold_) :
    s.pool.threadMaxThreshHold_ = pre.pool.threadMaxThreshHold_ ∧
    (s.pool.currThreadSize_ : Int) ≤ pre.pool.threadMaxThreshHold_ := by
  have hframe := start_frame n pre s0 hstart
  have hcurr : s0.pool.currThreadSize_ = toU32 n := by rw [hframe]
  have hmax : s0.pool.threadMaxThreshHold_ = pre.pool.threadMaxThreshHold_ := by rw [hframe]
  have h0 : (s0.pool.currThreadSize_ : Int) ≤ s0.pool.threadMaxThreshHold_ := by
    rw [hcurr, hmax]
    have := toU32_le n hn
    omega
  have hinv : (s.pool.currThreadSize_ : Int) ≤ s.pool.threadMaxThreshHold_ :=
    run_invariant (fun x => (x.pool.currThreadSize_ : Int) ≤ x.pool.threadMaxThreshHold_)
      (fun a x x1 hx hP => step_curr a x x1 hx hP) acts s0 s hrun h0
  have hcfg := ((run_config acts s0 s hrun).2.2.2.1).trans hmax
  exact ⟨hcfg, hcfg ▸ hinv⟩

/-- C7 fails on the code: a growable pool with the default worker cap 10
started with `start(11)` has 11 current workers, because `start` stores its
argument in `currThreadSize_` without the test against `threadMaxThreshHold_`
that the growth branch of `submitTask` makes. -/
theorem start_above_worker_cap :
    (boot 0 mainRuns [Setter.setMode PoolMode.MODE_CACHED] 11).map
        (fun s => (s.pool.pollMode_, s.pool.currThreadSize_, s.pool.threadMaxThreshHold_,
          decide ((s.pool.currThreadSize_ : Int) ≤ s.pool.threadMaxThreshHold_)))
      = some (PoolMode.MODE_CACHED, 11, 10, false) := by
  decide

/-- C8: on a pool on which `start` has been called, after any further actions,
`setMode`, `setTaskQueMaxThreshHold` and `setThreadSizeThreshHold` leave the
whole pool unchanged for every argument; on a pool that is not running,
`setTaskQueMaxThreshHold(k)` sets the queue capacity to `k` in growable mode and
changes nothing in fixed mode. -/
theorem setters_frozen_after_start (n : Int) (pre s0 s : Sys Tag) (acts : List Action)
    (hstart : ThreadPool.start n pre = some s0) (hrun : run acts s0 = some s) :
    (∀ mode, s.pool.setMode mode = s.pool) ∧
    (∀ k, s.pool.setTaskQueMaxThreshHold k = s.pool) ∧
    (∀ k, s.pool.setThreadSizeThreshHold k = s.pool) ∧
    (∀ (p : ThreadPool) (k : Int), p.isPoolRunning_ = false →
      (p.pollMode_ = PoolMode.MODE_CACHED →
        p.setTaskQueMaxThreshHold k = { p with taskQueMaxThreshHold_ := k }) ∧
      (p.pollMode_ = PoolMode.MODE_FIXED → p.setTaskQueMaxThreshHold k = p)) := by
  have h0 : s0.pool.isPoolRunning_ = true := by
    rw [start_frame n pre s0 hstart]
  have hr : s.pool.isPoolRunning_ = true := (run_config acts s0 s hrun).1.trans h0
  refine ⟨?_, ?_, ?_, ?_⟩
  · intro mode
    simp [ThreadPool.setMode, ThreadPool.checkRunningState, hr]
  · intro k
    simp [ThreadPool.setTaskQueMaxThreshHold, ThreadPool.checkRunningState, hr]
  · intro k
    simp [ThreadPool.setThreadSizeThreshHold, ThreadPool.checkRunningState, hr]
  · intro p k hp
    constructor
    · intro hm
      simp [ThreadPool.setTaskQueMaxThreshHold, ThreadPool.checkRunningState, hp, hm]
    · intro hm
      simp [ThreadPool.setTaskQueMaxThreshHold, ThreadPool.checkRunningState, hp, hm]

/-- Witness of C8 on `smallTrace`. -/
theorem setters_frozen_after_start_witness :
    ThreadPool.start 1 (configure smallCfg (Sys.fresh 0 mainRuns)) = some smallPool ∧
    run smallTrace smallPool = some smallFinal ∧
    (∀ mode, smallFinal.pool.setMode mode = smallFinal.pool) ∧
    (∀ k, smallFinal.pool.setTaskQueMaxThreshHold k = smallFinal.pool) ∧
    (∀ k, smallFinal.pool.setThreadSizeThreshHold k = smallFinal.pool) ∧
    (∀ (p : ThreadPool) (k : Int), p.isPoolRunning_ = false →
      (p.pollMode_ = PoolMode.MODE_CACHED →
        p.setTaskQueMaxThreshHold k = { p with taskQueMaxThreshHold_ := k }) ∧
      (p.pollMode_ = PoolMode.MODE_FIXED → p.setTaskQueMaxThreshHold k = p)) :=
  ⟨rfl, rfl,
   setters_frozen_after_start 1 (configure smallCfg (Sys.fresh 0 mainRuns)) smallPool
     smallFinal smallTrace rfl rfl⟩

/-- Distinct units do not protect a channel either once it is destroyed while a
worker is inside `run()` of its unit: on `raceTrace` the `Result` constructed in
the reused storage receives the late `setVal` of unit 7 and the one of its own
unit 8. -/
theorem late_publish_after_destroy :
    ((boot 0 mainRuns [] 1).bind (run raceTrace)).map
        (fun s => (s.results 0).map (fun r => (r.task_, r.setValCalls, r.sem_.resLimit_)))
      = some (some (8, 2, 2)) ∧
    (boot 0 mainRuns [] 1).map (disciplined raceTrace) = some false := by
  decide

/-- C10 fails on the code: with the static id counter at 1, `start(1)` on a
freshly constructed pool registers its worker under id 1, then looks up key 0
in the second loop, finds no entry and dereferences a null pointer. -/
theorem start_looks_up_loop_index :
    ((ThreadPool.startCreate 1 (Sys.fresh 1 mainRuns)).pool.threads_ = [(1, ⟨1⟩)]) ∧
    registryFind (ThreadPool.startCreate 1 (Sys.fresh 1 mainRuns)).pool.threads_ 0 = none ∧
    (ThreadPool.start 1 (Sys.fresh 1 mainRuns)).isNone = true ∧
    (boot 1 mainRuns [] 1).isNone = true := by
  decide
end MyThreadPool
